import Mathlib

/-!
Verification of the expert-agent-engine conversation core.

Shallow embedding of the Python sources:
  * `src/conversation.py` — `ConversationHistory` (message store, turn counter,
    construction-time seeding from a file);
  * `src/engine.py` — `ConversationEngine.run_conversation` (the turn-taking loop;
    the model-backed `Runner.run` invocations are abstracted as oracles);
  * `src/output_manager.py` — `OutputManager.format_conversation`,
    `OutputManager.generate_takeaways`.

Python mutable-aliasing behaviour (`list.copy()` being a shallow copy) is
modelled separately with an explicit heap of message cells.
-/

/-- Embedding of Python `str.strip()`: drop whitespace from both ends.
Structurally recursive so that concrete instances evaluate. -/
def pyStrip (s : String) : String :=
  ⟨((s.data.dropWhile Char.isWhitespace).reverse.dropWhile Char.isWhitespace).reverse⟩

/-- A conversation message: in the source, the dict `{"role": ..., "content": ...}`
(`src/conversation.py`, `Message = Dict[str, str]`). -/
structure Message where
  role : String
  content : String
deriving DecidableEq, Repr

/-- Embedding of `History = List[Message]` from `src/conversation.py`. -/
abbrev History := List Message

/-- State of `ConversationHistory` (`src/conversation.py`):
`max_iterations`, `messages`, `current_turn`. -/
structure ConversationHistory where
  max_iterations : Nat
  messages : History
  current_turn : Nat
deriving DecidableEq, Repr

/-- A Python value passed as message content: either a `str` or something else
(`add_message` checks `isinstance(content, str)`). -/
inductive PyContent
  | str (s : String)
  | nonStr
deriving DecidableEq

/-- The role whitelist from `add_message`: `["user", "assistant", "system"]`. -/
def validRoles : List String := ["user", "assistant", "system"]

/-- Appending a message dict to `self.messages` (the success path of
`add_message`). -/
def appendMsg (h : ConversationHistory) (role content : String) : ConversationHistory :=
  { h with messages := h.messages ++ [⟨role, content⟩] }

/-- Embedding of `ConversationHistory.add_message` (`src/conversation.py` lines 29–51):
raises `ValueError` when the role is not in the whitelist or the content is not
a string, otherwise appends `{"role": role, "content": content}`. -/
def add_message (h : ConversationHistory) (role : String) (content : PyContent) :
    Except String ConversationHistory :=
  if role ∉ validRoles then
    .error ("Invalid role " ++ role ++ ". Must be user, assistant, or system.")
  else
    match content with
    | .nonStr => .error "Message content must be a string."
    | .str s => .ok (appendMsg h role s)

/-- Embedding of `ConversationHistory.get_history`: `return self.messages.copy()` — at the
value level the returned sequence is the stored one (aliasing of the contained
dicts is modelled below in the heap section). -/
def get_history (h : ConversationHistory) : History :=
  h.messages

/-- Embedding of `ConversationHistory.increment_turn`. -/
def increment_turn (h : ConversationHistory) : ConversationHistory :=
  { h with current_turn := h.current_turn + 1 }

/-- Embedding of `ConversationHistory.is_complete`: `current_turn >= max_iterations`. -/
def is_complete (h : ConversationHistory) : Bool :=
  h.current_turn ≥ h.max_iterations

/-! ### Construction-time seeding (`ConversationHistory.__init__` / `_load_from_file`) -/

/-- Outcome of reading the seed file at the given path: the path is missing (or
not a file), reading raises, or reading yields the file content. -/
inductive FileRead
  | missing
  | readError (e : String)
  | ok (s : String)
deriving DecidableEq

/-- A seed-file source: its display name (`file_path.name`) and what reading it
produces. -/
structure SeedFile where
  name : String
  read : FileRead
deriving DecidableEq

/-- Errors raised during construction-time seeding: `FileNotFoundError` or
`IOError` (`_load_from_file`). -/
inductive SeedError
  | NotFound (msg : String)
  | IOError (msg : String)
deriving DecidableEq

/-- Embedding of `ConversationHistory._load_from_file` (`src/conversation.py` lines 57–90):
missing path raises `FileNotFoundError`; a read failure (or any other
exception) is wrapped as `IOError`; non-empty trimmed content is appended as a
single wrapped `system` message; empty trimmed content is a warning-only no-op. -/
def load_from_file (h : ConversationHistory) (f : SeedFile) :
    Except SeedError ConversationHistory :=
  match f.read with
  | .missing => .error (.NotFound ("History file not found: " ++ f.name))
  | .readError e =>
      .error (.IOError ("Error processing history file " ++ f.name ++ ": " ++ e))
  | .ok raw =>
      let content := pyStrip raw
      if content ≠ "" then
        match add_message h "system"
            (.str ("Initial context from history file (" ++ f.name ++ "):\n---\n"
              ++ content ++ "\n---")) with
        | .ok h2 => .ok h2
        | .error e =>
            .error (.IOError ("Error processing history file " ++ f.name ++ ": " ++ e))
      else
        .ok h

/-- Embedding of `ConversationHistory.__init__`: start with empty messages and turn `0`,
then optionally seed from a file. -/
def conversationHistory_init (max_iterations : Nat) (seed : Option SeedFile) :
    Except SeedError ConversationHistory :=
  let h : ConversationHistory := ⟨max_iterations, [], 0⟩
  match seed with
  | none => .ok h
  | some f => load_from_file h f

/-! ### The conversation loop (`ConversationEngine.run_conversation`) -/

/-- Outcome of one `Runner.run` invocation: the call raises, returns something
that is not a string (`final_output` fails the `isinstance` check, or the
result is falsy), or returns a string. -/
inductive InvokeResult
  | failure
  | invalid
  | success (s : String)

/-- Terminal state of the loop (spec §4.3): `Completed` when the loop exits via
the `is_complete` check, `Aborted` when it exits via `break`. -/
inductive RunState
  | Completed
  | Aborted
deriving DecidableEq, Repr

/-- An inference stub: given the 0-based `current_turn` at the invocation and
the input message sequence, produce the invocation's outcome. -/
abbrev AgentStub := Nat → History → InvokeResult

/-- The input handed to the user agent (`src/engine.py` lines 64–74): the
current history, or — when the history is empty — a single synthetic `system`
message stating the goal. -/
def bootstrapInput (goal : String) (msgs : History) : History :=
  if msgs.isEmpty then
    [⟨"system", "The conversation goal is: " ++ goal⟩]
  else
    msgs

/-- The conversation loop of `ConversationEngine.run_conversation`
(`src/engine.py` lines 54–148).  One iteration per turn: check `is_complete`;
invoke the user agent on the (possibly bootstrapped) history — exception means
`break` (abort), a non-string or empty stripped reply means increment the turn
and `continue`; otherwise append the stripped question as a `user` message and
invoke the expert agent on the updated history — exception, non-string or
empty stripped reply means `break` (abort); otherwise append the stripped
answer as an `assistant` message and increment the turn. -/
def run_conversation (q a : AgentStub) (goal : String) (h : ConversationHistory) :
    ConversationHistory × RunState :=
  if hc : h.current_turn ≥ h.max_iterations then
    (h, .Completed)
  else
    match q h.current_turn (bootstrapInput goal h.messages) with
    | .failure => (h, .Aborted)
    | .invalid => run_conversation q a goal (increment_turn h)
    | .success s =>
        let question := pyStrip s
        if question = "" then
          run_conversation q a goal (increment_turn h)
        else
          let h1 := appendMsg h "user" question
          match a h.current_turn h1.messages with
          | .failure => (h1, .Aborted)
          | .invalid => (h1, .Aborted)
          | .success s2 =>
              let answer := pyStrip s2
              if answer = "" then
                (h1, .Aborted)
              else
                run_conversation q a goal (increment_turn (appendMsg h1 "assistant" answer))
termination_by h.max_iterations - h.current_turn
decreasing_by
  all_goals simp [increment_turn, appendMsg]; omega

/-! ### Output manager (`src/output_manager.py`) -/

/-- The role-title mapping in `OutputManager.format_conversation`. -/
def roleTitle (role : String) : String :=
  if role = "user" then "User"
  else if role = "assistant" then "Expert"
  else if role = "system" then "System"
  else role.capitalize

/-- The heading line `## <RoleTitle> (Turn <n>)` built for the message at
1-based enumeration index `i` (`enumerate(messages, 1)`), with the displayed
turn `(i+1)//2` for non-system roles and `0` for system. -/
def headingLine (i : Nat) (m : Message) : String :=
  "## " ++ roleTitle m.role ++ " (Turn "
    ++ toString (if m.role ≠ "system" then (i + 1) / 2 else 0) ++ ")"

/-- The three lines appended per message: heading, content, blank separator. -/
def messageLines (i : Nat) (m : Message) : List String :=
  [headingLine i m, m.content, ""]

/-- The `lines` list built by `format_conversation` for a non-empty history:
two header lines (generation time, total turns), a blank line, then the
per-message blocks over `enumerate(messages, 1)`. -/
def transcriptLines (now : String) (h : ConversationHistory) : List String :=
  ["# Conversation Transcript (Generated: " ++ now ++ ")",
   "# Total Turns: " ++ toString h.current_turn, ""]
  ++ ((get_history h).enumFrom 1).flatMap (fun p => messageLines p.1 p.2)

/-- Embedding of `OutputManager.format_conversation` (`src/output_manager.py` lines 53–91);
the wall-clock timestamp is passed in as `now`. -/
def format_conversation (now : String) (h : ConversationHistory) : String :=
  if (get_history h).isEmpty then "No conversation history available."
  else String.intercalate "\n" (transcriptLines now h)

/-- The summarization instruction built by `generate_takeaways` (the
concatenated f-string literals, including the missing space before `Do`). -/
def takeawayPrompt (goal : String) : String :=
  "Based on the preceding conversation transcript where the initial goal was \""
    ++ goal ++ "\", please distill the key takeaways, insights, and conclusions. "
    ++ "Focus on the most important information relevant to the original goal. "
    ++ "Present the takeaways clearly and concisely, perhaps as bullet points."
    ++ "Do not refer to yourself, just provide the takeaways."

/-- Embedding of `OutputManager.generate_takeaways` (`src/output_manager.py` lines 119–178).
Returns the produced string together with the list of inputs on which the
expert agent was invoked (so that "the service is invoked exactly once on this
input" is a provable statement).  Empty history: error string, no invocation.
Otherwise the expert is run once on the full history plus one synthetic `user`
message; a string reply is returned stripped, a non-string reply or a raised
exception yields an error string. -/
def generate_takeaways (hist : ConversationHistory) (goal : String)
    (expert : History → InvokeResult) : String × List History :=
  let full_history := get_history hist
  if full_history.isEmpty then
    ("Error: Cannot generate takeaways from empty history.", [])
  else
    let summarization_input := full_history ++ [⟨"user", takeawayPrompt goal⟩]
    match expert summarization_input with
    | .success s => (pyStrip s, [summarization_input])
    | .invalid => ("Error: Failed to generate valid takeaways from the LLM.", [summarization_input])
    | .failure => ("Error generating takeaways: exception", [summarization_input])

/-! ### Heap model of Python aliasing

`get_history` returns `self.messages.copy()` — a *shallow* copy: the list
object is new, but the message dicts inside it are the very objects stored in
`self.messages`.  To reason about mutation through the snapshot we model
message dicts as heap cells addressed by natural numbers. -/

/-- A message dict living on the heap. -/
structure MsgCell where
  role : String
  content : String
deriving DecidableEq, Repr

/-- The heap: cell `r` is `heap[r]`; addresses beyond the heap read as a
default cell. -/
abbrev Heap := List MsgCell

/-- Heap-level store state: `messages` is a list of cell addresses. -/
structure HStore where
  max_iterations : Nat
  msgRefs : List Nat
  current_turn : Nat
deriving DecidableEq, Repr

/-- The message sequence a reader of the store (or of a snapshot) observes:
dereference each address. -/
def observed (heap : Heap) (refs : List Nat) : List MsgCell :=
  refs.map (fun r => heap.getD r ⟨"", ""⟩)

/-- Heap-level `get_history`: `self.messages.copy()` yields a new list holding
the same cell addresses. -/
def hGet_history (st : HStore) : List Nat :=
  st.msgRefs

/-- In-place mutation of a message dict: `msg["content"] = c` on cell `r`. -/
def setCellContent (heap : Heap) (r : Nat) (c : String) : Heap :=
  heap.set r { heap.getD r ⟨"", ""⟩ with content := c }

/-- Heap-level `generate_takeaways`: the snapshot's address list is extended
(by `full_history + [...]`, which builds a new list) with a freshly allocated
cell holding the synthetic summarization message; the store itself is never
written. Returns the produced string and the heap after the allocation. -/
def hGenerate_takeaways (heap : Heap) (st : HStore) (goal : String)
    (expert : List MsgCell → InvokeResult) : String × Heap :=
  let full_history := hGet_history st
  if full_history.isEmpty then
    ("Error: Cannot generate takeaways from empty history.", heap)
  else
    let heap2 := heap ++ [⟨"user", takeawayPrompt goal⟩]
    let summarization_input := full_history ++ [heap.length]
    match expert (observed heap2 summarization_input) with
    | .success s => (pyStrip s, heap2)
    | .invalid => ("Error: Failed to generate valid takeaways from the LLM.", heap2)
    | .failure => ("Error generating takeaways: exception", heap2)

/-! ### Auxiliary predicates and functions for the loop theorems -/

/-- The stub at turn `t` always succeeds with a reply that is non-empty after
stripping. -/
def goodAt (f : AgentStub) (t : Nat) : Prop :=
  ∀ input, ∃ s, f t input = .success s ∧ pyStrip s ≠ ""

/-- The stub at turn `t` always soft-fails: non-string output, or a reply that
is empty after stripping. -/
def softFailAt (f : AgentStub) (t : Nat) : Prop :=
  ∀ input, f t input = .invalid ∨ ∃ s, f t input = .success s ∧ pyStrip s = ""

/-- The stub at turn `t` always raises. -/
def failAt (f : AgentStub) (t : Nat) : Prop :=
  ∀ input, f t input = .failure

/-- The role pattern of `n` completed exchanges: `user`, `assistant`, repeated. -/
def altRoles : Nat → List String
  | 0 => []
  | n + 1 => "user" :: "assistant" :: altRoles n

/-- An error-flagged string in the sense of the Output Sink: it begins with
the literal text `Error`. -/
def errorFlagged (s : String) : Prop :=
  ∃ rest, s = "Error" ++ rest

/-! ## Theorems -/

/-- C5: for every role in `{system, user, assistant}` and every string
content, `add_message` appends exactly one message, preserving all prior
messages and their order; for every role outside that set, and for every
non-string content, it fails with an error and produces no modified history
(the checks precede the append, so the store is left exactly unchanged). -/
theorem C5_add_message_contract (h : ConversationHistory) (role : String)
    (content : PyContent) :
    (∀ s, role ∈ validRoles → content = .str s →
      add_message h role content
        = .ok { h with messages := h.messages ++ [⟨role, s⟩] }) ∧
    (role ∉ validRoles → ∃ e, add_message h role content = .error e) ∧
    (content = .nonStr → ∃ e, add_message h role content = .error e) := by
  refine ⟨?_, ?_, ?_⟩
  · intro s hrole hcontent
    subst hcontent
    simp [add_message, hrole, appendMsg]
  · intro hrole
    refine ⟨"Invalid role " ++ role ++ ". Must be user, assistant, or system.", ?_⟩
    simp [add_message, hrole]
  · intro hcontent
    subst hcontent
    by_cases hrole : role ∈ validRoles
    · refine ⟨"Message content must be a string.", ?_⟩
      simp [add_message, hrole]
    · refine ⟨"Invalid role " ++ role ++ ". Must be user, assistant, or system.", ?_⟩
      simp [add_message, hrole]

theorem C5_add_message_contract_witness :
    add_message ⟨3, [], 0⟩ "user" (.str "hi")
      = .ok { (⟨3, [], 0⟩ : ConversationHistory) with
                messages := ([] : History) ++ [⟨"user", "hi"⟩] } ∧
    (∃ e, add_message ⟨3, [], 0⟩ "judge" (.str "hi") = .error e) ∧
    (∃ e, add_message ⟨3, [], 0⟩ "user" .nonStr = .error e) :=
  ⟨(C5_add_message_contract ⟨3, [], 0⟩ "user" (.str "hi")).1 "hi" (by decide) rfl,
   (C5_add_message_contract ⟨3, [], 0⟩ "judge" (.str "hi")).2.1 (by decide),
   (C5_add_message_contract ⟨3, [], 0⟩ "user" .nonStr).2.2 rfl⟩

/-- C8: construction-time seeding.  A missing (or non-file) seed path makes
construction fail with `NotFound`; content that is non-empty after trimming
yields a history of exactly one `system` message whose content contains that
trimmed content; content that is empty after trimming is a no-op leaving the
history empty. -/
theorem C8_seeding_contract (N : Nat) (f : SeedFile) :
    (f.read = .missing →
      ∃ msg, conversationHistory_init N (some f) = .error (.NotFound msg)) ∧
    (∀ raw, f.read = .ok raw → pyStrip raw ≠ "" →
      ∃ pre post, conversationHistory_init N (some f)
        = .ok ⟨N, [⟨"system", pre ++ pyStrip raw ++ post⟩], 0⟩) ∧
    (∀ raw, f.read = .ok raw → pyStrip raw = "" →
      conversationHistory_init N (some f) = .ok ⟨N, [], 0⟩) := by
  refine ⟨?_, ?_, ?_⟩
  · intro hread
    refine ⟨"History file not found: " ++ f.name, ?_⟩
    simp [conversationHistory_init, load_from_file, hread]
  · intro raw hread hne
    refine ⟨"Initial context from history file (" ++ f.name ++ "):\n---\n", "\n---", ?_⟩
    simp [conversationHistory_init, load_from_file, hread, hne, add_message,
      validRoles, appendMsg]
  · intro raw hread hempty
    simp [conversationHistory_init, load_from_file, hread, hempty]

theorem C8_seeding_contract_witness :
    (∃ pre post, conversationHistory_init 2 (some ⟨"ctx.txt", .ok "hello"⟩)
      = .ok ⟨2, [⟨"system", pre ++ pyStrip "hello" ++ post⟩], 0⟩) ∧
    (∃ msg, conversationHistory_init 2 (some ⟨"ctx.txt", .missing⟩)
      = .error (.NotFound msg)) ∧
    conversationHistory_init 2 (some ⟨"ctx.txt", .ok "  "⟩) = .ok ⟨2, [], 0⟩ :=
  ⟨(C8_seeding_contract 2 ⟨"ctx.txt", .ok "hello"⟩).2.1 "hello" rfl (by decide),
   (C8_seeding_contract 2 ⟨"ctx.txt", .missing⟩).1 rfl,
   (C8_seeding_contract 2 ⟨"ctx.txt", .ok "  "⟩).2.2 "  " rfl (by decide)⟩

/-- C2 fails as stated: `get_history` returns `self.messages.copy()`, a
shallow copy, so the snapshot aliases the stored message dicts.  Concretely,
with a store holding one message cell, rewriting the content of the message
obtained from the snapshot changes the messages subsequently observed in the
store. -/
theorem C2_snapshot_counterexample :
    observed
        (setCellContent [⟨"user", "hi"⟩]
          ((hGet_history ⟨5, [0], 0⟩).getD 0 0) "evil")
        (HStore.msgRefs ⟨5, [0], 0⟩)
      ≠ observed [⟨"user", "hi"⟩] (HStore.msgRefs ⟨5, [0], 0⟩) := by
  decide

/-- C2 amended: the snapshot observes a sequence equal to the stored history,
and two snapshots without an intervening `add` are equal; the snapshot list is
a fresh list, but it holds the very cell addresses of the store (shallow
copy), so mutating any message cell reachable from the snapshot to a different
value changes the messages subsequently observed in the store. -/
theorem C2_snapshot_amended (heap : Heap) (st : HStore) :
    observed heap (hGet_history st) = observed heap st.msgRefs ∧
    observed heap (hGet_history st) = observed heap (hGet_history st) ∧
    hGet_history st = st.msgRefs ∧
    (∀ r c, r ∈ hGet_history st → r < heap.length →
      heap.getD r ⟨"", ""⟩ ≠ { heap.getD r ⟨"", ""⟩ with content := c } →
      observed (setCellContent heap r c) st.msgRefs ≠ observed heap st.msgRefs) := by
  refine ⟨rfl, rfl, rfl, ?_⟩
  intro r c hmem hlt hne heq
  simp only [hGet_history] at hmem
  obtain ⟨i, hi, hir⟩ := List.mem_iff_getElem.mp hmem
  have hcell : (setCellContent heap r c).getD r ⟨"", ""⟩
      = { heap.getD r ⟨"", ""⟩ with content := c } := by
    rw [setCellContent, List.getD_eq_getElem?_getD, List.getElem?_set_self hlt]
    rfl
  have h1 := congrArg (fun l => l[i]?) heq
  simp only [observed, List.getElem?_map] at h1
  have hge : st.msgRefs[i]? = some r := by
    rw [List.getElem?_eq_getElem hi]
    exact congrArg some hir
  rw [hge] at h1
  simp only [Option.map_some'] at h1
  rw [hcell] at h1
  exact hne (Option.some.inj h1).symm

theorem C2_snapshot_amended_witness :
    observed (setCellContent [(⟨"user", "hi"⟩ : MsgCell)] 0 "evil")
        (HStore.msgRefs ⟨5, [0], 0⟩)
      ≠ observed [(⟨"user", "hi"⟩ : MsgCell)] (HStore.msgRefs ⟨5, [0], 0⟩) :=
  (C2_snapshot_amended [⟨"user", "hi"⟩] ⟨5, [0], 0⟩).2.2.2 0 "evil"
    (by decide) (by decide) (by decide)

/-- C9: `generate_takeaways` never mutates the conversation history store.
The synthetic summarization message is appended only to a fresh list built
from the snapshot (and allocated as a fresh cell), so — for any store whose
message references point into the heap — the message sequence the store
observes is identical before and after the call, on every outcome of the
expert invocation; the store state (references, turn counter, limit) is not
written at all. -/
theorem C9_takeaways_frame (heap : Heap) (st : HStore) (goal : String)
    (expert : List MsgCell → InvokeResult)
    (hwf : ∀ r ∈ st.msgRefs, r < heap.length) :
    observed (hGenerate_takeaways heap st goal expert).2 st.msgRefs
      = observed heap st.msgRefs := by
  have hext : observed (heap ++ [⟨"user", takeawayPrompt goal⟩]) st.msgRefs
      = observed heap st.msgRefs := by
    apply List.map_congr_left
    intro r hr
    exact List.getD_append _ _ _ _ (hwf r hr)
  unfold hGenerate_takeaways
  by_cases hempty : (hGet_history st).isEmpty
  · simp [hempty]
  · simp only [hempty, if_neg, Bool.false_eq_true, not_false_iff, if_false]
    cases expert (observed (heap ++ [⟨"user", takeawayPrompt goal⟩])
        (hGet_history st ++ [heap.length])) <;> simpa using hext

theorem C9_takeaways_frame_witness :
    observed
        (hGenerate_takeaways [⟨"user", "q"⟩] ⟨3, [0], 1⟩ "g"
          (fun _ => .success "ok")).2
        (HStore.msgRefs ⟨3, [0], 1⟩)
      = observed [⟨"user", "q"⟩] (HStore.msgRefs ⟨3, [0], 1⟩) :=
  C9_takeaways_frame [⟨"user", "q"⟩] ⟨3, [0], 1⟩ "g" (fun _ => .success "ok")
    (by decide)

/-- C7: on an empty history `generate_takeaways` returns an error-flagged
string and performs no expert invocation; on a non-empty history it invokes
the expert exactly once, on the full history extended by one synthetic `user`
message, and returns the stripped reply on success, or an error-flagged string
when the reply is not a string or the invocation raises. -/
theorem C7_generate_takeaways_contract (hist : ConversationHistory)
    (goal : String) (expert : History → InvokeResult) :
    (hist.messages = [] →
      (generate_takeaways hist goal expert).2 = [] ∧
      errorFlagged (generate_takeaways hist goal expert).1) ∧
    (hist.messages ≠ [] →
      (generate_takeaways hist goal expert).2
        = [hist.messages ++ [⟨"user", takeawayPrompt goal⟩]] ∧
      (∀ s, expert (hist.messages ++ [⟨"user", takeawayPrompt goal⟩]) = .success s →
        (generate_takeaways hist goal expert).1 = pyStrip s) ∧
      (expert (hist.messages ++ [⟨"user", takeawayPrompt goal⟩]) = .invalid →
        errorFlagged (generate_takeaways hist goal expert).1) ∧
      (expert (hist.messages ++ [⟨"user", takeawayPrompt goal⟩]) = .failure →
        errorFlagged (generate_takeaways hist goal expert).1)) := by
  constructor
  · intro hempty
    constructor
    · simp [generate_takeaways, get_history, hempty]
    · refine ⟨": Cannot generate takeaways from empty history.", ?_⟩
      simp [generate_takeaways, get_history, hempty]
  · intro hne
    have hne' : ¬ (get_history hist).isEmpty := by
      simpa [get_history, List.isEmpty_iff] using hne
    refine ⟨?_, ?_, ?_, ?_⟩
    · simp only [generate_takeaways, get_history] at *
      rw [if_neg hne']
      cases expert (hist.messages ++ [⟨"user", takeawayPrompt goal⟩]) <;> rfl
    · intro s hs
      simp only [generate_takeaways, get_history] at *
      rw [if_neg hne', hs]
    · intro hs
      refine ⟨": Failed to generate valid takeaways from the LLM.", ?_⟩
      simp only [generate_takeaways, get_history] at *
      rw [if_neg hne', hs]
      rfl
    · intro hs
      refine ⟨" generating takeaways: exception", ?_⟩
      simp only [generate_takeaways, get_history] at *
      rw [if_neg hne', hs]
      rfl

theorem C7_generate_takeaways_contract_witness :
    ((generate_takeaways ⟨2, [], 0⟩ "g" (fun _ => .success " T ")).2 = [] ∧
      errorFlagged (generate_takeaways ⟨2, [], 0⟩ "g" (fun _ => .success " T ")).1) ∧
    (generate_takeaways ⟨2, [⟨"user", "q"⟩], 1⟩ "g" (fun _ => .success " T ")).2
      = [[⟨"user", "q"⟩] ++ [⟨"user", takeawayPrompt "g"⟩]] ∧
    (generate_takeaways ⟨2, [⟨"user", "q"⟩], 1⟩ "g" (fun _ => .success " T ")).1
      = pyStrip " T " :=
  ⟨(C7_generate_takeaways_contract ⟨2, [], 0⟩ "g" (fun _ => .success " T ")).1 rfl,
   ((C7_generate_takeaways_contract ⟨2, [⟨"user", "q"⟩], 1⟩ "g"
      (fun _ => .success " T ")).2 (by decide)).1,
   ((C7_generate_takeaways_contract ⟨2, [⟨"user", "q"⟩], 1⟩ "g"
      (fun _ => .success " T ")).2 (by decide)).2.1 " T " rfl⟩

/-- Position of each heading inside the per-message blocks: the block list for
`enumerate(messages, k)` has the heading of the `j`-th message (0-based) at
line `3*j`, and that heading is built from the enumeration index `k + j`. -/
theorem transcript_block_getElem (msgs : History) :
    ∀ (k j : Nat) (m : Message), msgs[j]? = some m →
      ((msgs.enumFrom k).flatMap (fun p => messageLines p.1 p.2))[3 * j]?
        = some (headingLine (k + j) m) := by
  induction msgs with
  | nil =>
    intro k j m hm
    simp at hm
  | cons x xs ih =>
    intro k j m hm
    cases j with
    | zero =>
      rw [List.getElem?_cons_zero] at hm
      obtain rfl : x = m := Option.some.inj hm
      simp [List.enumFrom_cons, messageLines]
    | succ j2 =>
      rw [List.getElem?_cons_succ] at hm
      rw [List.enumFrom_cons, List.flatMap_cons]
      have hlen : (messageLines k x).length = 3 := rfl
      have hidx : 3 * (j2 + 1) = 3 + 3 * j2 := by ring
      rw [hidx, List.getElem?_append_right (by rw [hlen]; omega)]
      rw [hlen]
      have hidx2 : 3 + 3 * j2 - 3 = 3 * j2 := by omega
      rw [hidx2, ih (k + 1) j2 m hm]
      have hke : k + 1 + j2 = k + (j2 + 1) := by omega
      rw [hke]

/-- C6 fails as stated: the source enumerates messages 1-based
(`enumerate(messages, 1)`) and displays `(i+1)//2`, so the non-system message
at 0-based index `0` is shown as `Turn 1`, not the claimed `(0+1)//2 = 0`.
Concretely, on a history holding a single `user` message, the heading line of
the message at index 0 of the formatted transcript reads `## User (Turn 1)`. -/
theorem C6_display_turn_counterexample :
    (transcriptLines "t" ⟨2, [⟨"user", "hi"⟩], 1⟩)[3 + 3 * 0]?
        = some "## User (Turn 1)" ∧
    (transcriptLines "t" ⟨2, [⟨"user", "hi"⟩], 1⟩)[3 + 3 * 0]?
        ≠ some ("## User (Turn " ++ toString ((0 + 1) / 2) ++ ")") := by
  constructor <;> decide

/-- C6 amended: in the formatted transcript, the displayed turn number of the
message at 0-based position `j` equals `(j+2)/2` rounded down (equivalently
`(i+1)/2` over the 1-based enumeration index `i = j+1`) when the role is not
`system`, and `0` when the role is `system`.  The heading of message `j` is
line `3 + 3*j` of the transcript's line list. -/
theorem C6_display_turn_amended (now : String) (h : ConversationHistory)
    (j : Nat) (m : Message) (hm : (get_history h)[j]? = some m) :
    (transcriptLines now h)[3 + 3 * j]?
      = some ("## " ++ roleTitle m.role ++ " (Turn "
          ++ toString (if m.role ≠ "system" then (j + 2) / 2 else 0) ++ ")") := by
  unfold transcriptLines
  have hlen : (["# Conversation Transcript (Generated: " ++ now ++ ")",
      "# Total Turns: " ++ toString h.current_turn, ""] : List String).length = 3 := rfl
  rw [List.getElem?_append_right (by rw [hlen]; omega), hlen]
  have hidx : 3 + 3 * j - 3 = 3 * j := by omega
  rw [hidx, transcript_block_getElem (get_history h) 1 j m hm]
  unfold headingLine
  have hke : 1 + j + 1 = j + 2 := by omega
  rw [hke]

theorem C6_display_turn_amended_witness :
    (transcriptLines "t" ⟨2, [⟨"user", "hi"⟩, ⟨"assistant", "yo"⟩], 1⟩)[3 + 3 * 1]?
      = some ("## " ++ roleTitle "assistant" ++ " (Turn "
          ++ toString (if ("assistant" : String) ≠ "system" then (1 + 2) / 2 else 0)
          ++ ")") :=
  C6_display_turn_amended "t" ⟨2, [⟨"user", "hi"⟩, ⟨"assistant", "yo"⟩], 1⟩ 1
    ⟨"assistant", "yo"⟩ (by decide)

/-! ### Step lemmas for the conversation loop -/

theorem run_step_complete (q a : AgentStub) (goal : String)
    (h : ConversationHistory) (hc : h.current_turn ≥ h.max_iterations) :
    run_conversation q a goal h = (h, .Completed) := by
  conv_lhs => rw [run_conversation]
  rw [dif_pos hc]

theorem run_step_qfail (q a : AgentStub) (goal : String) (h : ConversationHistory)
    (hc : ¬ h.current_turn ≥ h.max_iterations)
    (hq : q h.current_turn (bootstrapInput goal h.messages) = .failure) :
    run_conversation q a goal h = (h, .Aborted) := by
  conv_lhs => rw [run_conversation]
  rw [dif_neg hc, hq]

theorem run_step_qinvalid (q a : AgentStub) (goal : String) (h : ConversationHistory)
    (hc : ¬ h.current_turn ≥ h.max_iterations)
    (hq : q h.current_turn (bootstrapInput goal h.messages) = .invalid) :
    run_conversation q a goal h
      = run_conversation q a goal (increment_turn h) := by
  conv_lhs => rw [run_conversation]
  rw [dif_neg hc, hq]

theorem run_step_qempty (q a : AgentStub) (goal : String) (h : ConversationHistory)
    (s : String) (hc : ¬ h.current_turn ≥ h.max_iterations)
    (hq : q h.current_turn (bootstrapInput goal h.messages) = .success s)
    (hs : pyStrip s = "") :
    run_conversation q a goal h
      = run_conversation q a goal (increment_turn h) := by
  conv_lhs => rw [run_conversation]
  rw [dif_neg hc, hq]
  simp [hs]

theorem run_step_afail (q a : AgentStub) (goal : String) (h : ConversationHistory)
    (s : String) (hc : ¬ h.current_turn ≥ h.max_iterations)
    (hq : q h.current_turn (bootstrapInput goal h.messages) = .success s)
    (hs : pyStrip s ≠ "")
    (ha : a h.current_turn (appendMsg h "user" (pyStrip s)).messages = .failure) :
    run_conversation q a goal h = (appendMsg h "user" (pyStrip s), .Aborted) := by
  conv_lhs => rw [run_conversation]
  rw [dif_neg hc, hq]
  simp only [if_neg hs]
  rw [ha]

theorem run_step_ainvalid (q a : AgentStub) (goal : String) (h : ConversationHistory)
    (s : String) (hc : ¬ h.current_turn ≥ h.max_iterations)
    (hq : q h.current_turn (bootstrapInput goal h.messages) = .success s)
    (hs : pyStrip s ≠ "")
    (ha : a h.current_turn (appendMsg h "user" (pyStrip s)).messages = .invalid) :
    run_conversation q a goal h = (appendMsg h "user" (pyStrip s), .Aborted) := by
  conv_lhs => rw [run_conversation]
  rw [dif_neg hc, hq]
  simp only [if_neg hs]
  rw [ha]

theorem run_step_aempty (q a : AgentStub) (goal : String) (h : ConversationHistory)
    (s s2 : String) (hc : ¬ h.current_turn ≥ h.max_iterations)
    (hq : q h.current_turn (bootstrapInput goal h.messages) = .success s)
    (hs : pyStrip s ≠ "")
    (ha : a h.current_turn (appendMsg h "user" (pyStrip s)).messages = .success s2)
    (hs2 : pyStrip s2 = "") :
    run_conversation q a goal h = (appendMsg h "user" (pyStrip s), .Aborted) := by
  conv_lhs => rw [run_conversation]
  rw [dif_neg hc, hq]
  simp only [if_neg hs]
  rw [ha]
  simp [hs2]

theorem run_step_full (q a : AgentStub) (goal : String) (h : ConversationHistory)
    (s s2 : String) (hc : ¬ h.current_turn ≥ h.max_iterations)
    (hq : q h.current_turn (bootstrapInput goal h.messages) = .success s)
    (hs : pyStrip s ≠ "")
    (ha : a h.current_turn (appendMsg h "user" (pyStrip s)).messages = .success s2)
    (hs2 : pyStrip s2 ≠ "") :
    run_conversation q a goal h
      = run_conversation q a goal
          (increment_turn
            (appendMsg (appendMsg h "user" (pyStrip s)) "assistant" (pyStrip s2))) := by
  conv_lhs => rw [run_conversation]
  rw [dif_neg hc, hq]
  simp only [if_neg hs]
  rw [ha]
  simp [hs2]

/-! ### Counting the alternation pattern -/

theorem altRoles_count_user (n : Nat) : (altRoles n).count "user" = n := by
  induction n with
  | zero => rfl
  | succ n2 ih =>
    rw [altRoles, List.count_cons, List.count_cons, ih]
    have h1 : (("assistant" : String) == "user") = false := by decide
    have h2 : (("user" : String) == "user") = true := by decide
    rw [h1, h2]
    simp

theorem altRoles_count_assistant (n : Nat) : (altRoles n).count "assistant" = n := by
  induction n with
  | zero => rfl
  | succ n2 ih =>
    rw [altRoles, List.count_cons, List.count_cons, ih]
    have h1 : (("assistant" : String) == "assistant") = true := by decide
    have h2 : (("user" : String) == "assistant") = false := by decide
    rw [h1, h2]
    simp

theorem altRoles_append_count_user (p r : Nat) :
    ((altRoles p ++ altRoles r).count "user") = p + r := by
  rw [List.count_append, altRoles_count_user, altRoles_count_user]

theorem altRoles_append_count_assistant (p r : Nat) :
    ((altRoles p ++ altRoles r).count "assistant") = p + r := by
  rw [List.count_append, altRoles_count_assistant, altRoles_count_assistant]

/-- Decomposition of the loop: from any state, `k` consecutive turns on which
both stubs succeed with non-empty stripped replies advance the loop to the
same run restarted `k` turns later, having appended `k` complete
`user`/`assistant` exchanges. -/
theorem run_reach (q a : AgentStub) (goal : String) :
    ∀ (k : Nat) (h : ConversationHistory),
      h.current_turn + k ≤ h.max_iterations →
      (∀ t, h.current_turn ≤ t → t < h.current_turn + k → goodAt q t ∧ goodAt a t) →
      ∃ ext, run_conversation q a goal h
          = run_conversation q a goal
              ⟨h.max_iterations, h.messages ++ ext, h.current_turn + k⟩
        ∧ ext.map Message.role = altRoles k := by
  intro k
  induction k with
  | zero =>
    intro h _ _
    refine ⟨[], ?_, rfl⟩
    have hst : (⟨h.max_iterations, h.messages ++ [], h.current_turn + 0⟩
        : ConversationHistory) = h := by
      cases h
      simp
    rw [hst]
  | succ k2 ih =>
    intro h hle hgood
    have hc : ¬ h.current_turn ≥ h.max_iterations := by omega
    obtain ⟨hq, ha⟩ := hgood h.current_turn (le_refl _) (by omega)
    obtain ⟨s, hqs, hqne⟩ := hq (bootstrapInput goal h.messages)
    obtain ⟨s2, has, hane⟩ := ha (appendMsg h "user" (pyStrip s)).messages
    rw [run_step_full q a goal h s s2 hc hqs hqne has hane]
    obtain ⟨ext2, hrun2, hroles2⟩ := ih
      (increment_turn (appendMsg (appendMsg h "user" (pyStrip s)) "assistant" (pyStrip s2)))
      (by simp [increment_turn, appendMsg]; omega)
      (by
        intro t ht1 ht2
        simp only [increment_turn, appendMsg] at ht1 ht2
        exact hgood t (by omega) (by omega))
    refine ⟨⟨"user", pyStrip s⟩ :: ⟨"assistant", pyStrip s2⟩ :: ext2, ?_, ?_⟩
    · rw [hrun2]
      have hst : (⟨(increment_turn (appendMsg (appendMsg h "user" (pyStrip s))
              "assistant" (pyStrip s2))).max_iterations,
            (increment_turn (appendMsg (appendMsg h "user" (pyStrip s))
              "assistant" (pyStrip s2))).messages ++ ext2,
            (increment_turn (appendMsg (appendMsg h "user" (pyStrip s))
              "assistant" (pyStrip s2))).current_turn + k2⟩ : ConversationHistory)
          = ⟨h.max_iterations,
              h.messages ++ (⟨"user", pyStrip s⟩ :: ⟨"assistant", pyStrip s2⟩ :: ext2),
              h.current_turn + (k2 + 1)⟩ := by
        simp only [increment_turn, appendMsg]
        congr 1
        · simp
        · omega
      rw [hst]
    · simp only [List.map_cons, hroles2]
      rfl

/-- C1: for every positive max-turns `N`, when every invocation of both stubs
succeeds with a reply that is non-empty after stripping, the loop started on a
fresh store ends in `Completed` (exiting via the `is_complete` check), the
turn counter equals `N`, and the final history is exactly `N`
`user`/`assistant` exchanges appended in alternation — in particular it holds
exactly `N` user messages and `N` assistant messages. -/
theorem C1_loop_termination (N : Nat) (q a : AgentStub) (goal : String)
    (hN : 1 ≤ N) (hq : ∀ t, goodAt q t) (ha : ∀ t, goodAt a t) :
    (run_conversation q a goal ⟨N, [], 0⟩).2 = .Completed ∧
    is_complete (run_conversation q a goal ⟨N, [], 0⟩).1 = true ∧
    (run_conversation q a goal ⟨N, [], 0⟩).1.current_turn = N ∧
    (run_conversation q a goal ⟨N, [], 0⟩).1.messages.map Message.role
      = altRoles N ∧
    ((run_conversation q a goal ⟨N, [], 0⟩).1.messages.map Message.role).count
      "user" = N ∧
    ((run_conversation q a goal ⟨N, [], 0⟩).1.messages.map Message.role).count
      "assistant" = N := by
  obtain ⟨ext, hrun, hroles⟩ := run_reach q a goal N ⟨N, [], 0⟩
    (by simp) (fun t _ _ => ⟨hq t, ha t⟩)
  rw [run_step_complete q a goal ⟨N, [] ++ ext, 0 + N⟩ (by simp)] at hrun
  have hmsgs : (run_conversation q a goal ⟨N, [], 0⟩).1.messages = ext := by
    rw [hrun]
    simp
  refine ⟨by rw [hrun], by rw [hrun]; simp [is_complete], by rw [hrun]; simp,
    ?_, ?_, ?_⟩
  · rw [hmsgs, hroles]
  · rw [hmsgs, hroles, altRoles_count_user]
  · rw [hmsgs, hroles, altRoles_count_assistant]

theorem C1_loop_termination_witness :
    (run_conversation (fun _ _ => .success "Q") (fun _ _ => .success "A") "g"
      ⟨2, [], 0⟩).2 = .Completed ∧
    is_complete (run_conversation (fun _ _ => .success "Q")
      (fun _ _ => .success "A") "g" ⟨2, [], 0⟩).1 = true ∧
    (run_conversation (fun _ _ => .success "Q") (fun _ _ => .success "A") "g"
      ⟨2, [], 0⟩).1.current_turn = 2 ∧
    (run_conversation (fun _ _ => .success "Q") (fun _ _ => .success "A") "g"
      ⟨2, [], 0⟩).1.messages.map Message.role = altRoles 2 ∧
    ((run_conversation (fun _ _ => .success "Q") (fun _ _ => .success "A") "g"
      ⟨2, [], 0⟩).1.messages.map Message.role).count "user" = 2 ∧
    ((run_conversation (fun _ _ => .success "Q") (fun _ _ => .success "A") "g"
      ⟨2, [], 0⟩).1.messages.map Message.role).count "assistant" = 2 :=
  C1_loop_termination 2 (fun _ _ => .success "Q") (fun _ _ => .success "A") "g"
    (by decide)
    (fun _ input => ⟨"Q", rfl, by decide⟩)
    (fun _ input => ⟨"A", rfl, by decide⟩)

/-- C3: when the expert stub raises on (1-based) turn `k` while every earlier
invocation of either stub succeeds with non-empty stripped text (and the user
stub also succeeds on turn `k`), the loop ends early in `Aborted` without
raising: the final history is `k-1` complete exchanges followed by the
dangling `k`-th question — exactly `k` user messages and `k-1` assistant
messages, the last message being the `k`-th question — and the turn counter
stays at `k-1`. -/
theorem C3_responder_failure_abort (N k : Nat) (q a : AgentStub) (goal : String)
    (hk1 : 1 ≤ k) (hkN : k ≤ N)
    (hq : ∀ t, t < k → goodAt q t)
    (ha : ∀ t, t < k - 1 → goodAt a t)
    (hfail : failAt a (k - 1)) :
    (run_conversation q a goal ⟨N, [], 0⟩).2 = .Aborted ∧
    (run_conversation q a goal ⟨N, [], 0⟩).1.messages.map Message.role
      = altRoles (k - 1) ++ ["user"] ∧
    (run_conversation q a goal ⟨N, [], 0⟩).1.current_turn = k - 1 ∧
    ((run_conversation q a goal ⟨N, [], 0⟩).1.messages.map Message.role).count
      "user" = k ∧
    ((run_conversation q a goal ⟨N, [], 0⟩).1.messages.map Message.role).count
      "assistant" = k - 1 := by
  obtain ⟨ext, hrun, hroles⟩ := run_reach q a goal (k - 1) ⟨N, [], 0⟩
    (by simp; omega)
    (fun t ht1 ht2 => by
      have ht2' : t < 0 + (k - 1) := ht2
      exact ⟨hq t (by omega), ha t (by omega)⟩)
  simp only [Nat.zero_add, List.nil_append] at hrun
  have hc : ¬ (⟨N, ext, k - 1⟩ : ConversationHistory).current_turn
      ≥ (⟨N, ext, k - 1⟩ : ConversationHistory).max_iterations := by
    simp
    omega
  obtain ⟨s, hqs, hqne⟩ := hq (k - 1) (by omega)
    (bootstrapInput goal (⟨N, ext, k - 1⟩ : ConversationHistory).messages)
  rw [run_step_afail q a goal ⟨N, ext, k - 1⟩ s hc hqs hqne
    (hfail (appendMsg ⟨N, ext, k - 1⟩ "user" (pyStrip s)).messages)] at hrun
  rw [hrun]
  refine ⟨rfl, ?_, rfl, ?_, ?_⟩
  · simp [appendMsg, hroles]
  · simp [appendMsg, hroles, List.count_append, altRoles_count_user]
    omega
  · simp [appendMsg, hroles, List.count_append, altRoles_count_assistant]

theorem C3_responder_failure_abort_witness :
    (run_conversation (fun _ _ => .success "Q") (fun _ _ => .failure) "g"
      ⟨1, [], 0⟩).2 = .Aborted ∧
    (run_conversation (fun _ _ => .success "Q") (fun _ _ => .failure) "g"
      ⟨1, [], 0⟩).1.messages.map Message.role = altRoles (1 - 1) ++ ["user"] ∧
    (run_conversation (fun _ _ => .success "Q") (fun _ _ => .failure) "g"
      ⟨1, [], 0⟩).1.current_turn = 1 - 1 ∧
    ((run_conversation (fun _ _ => .success "Q") (fun _ _ => .failure) "g"
      ⟨1, [], 0⟩).1.messages.map Message.role).count "user" = 1 ∧
    ((run_conversation (fun _ _ => .success "Q") (fun _ _ => .failure) "g"
      ⟨1, [], 0⟩).1.messages.map Message.role).count "assistant" = 1 - 1 :=
  C3_responder_failure_abort 1 1 (fun _ _ => .success "Q") (fun _ _ => .failure)
    "g" (by decide) (by decide)
    (fun _ _ => fun _ => ⟨"Q", rfl, by decide⟩)
    (fun t ht => absurd ht (by omega))
    (fun _ => rfl)

/-- C4: if the user stub soft-fails on (1-based) turn `k` — non-string output
or a reply that strips to empty — and both stubs succeed with non-empty
stripped text on every other turn, the loop still reaches `Completed` with the
turn counter at `N` (exactly `N` increments from `0`); turn `k` contributes no
messages, so the final history is the `k-1` earlier exchanges followed by the
`N-k` later ones (`N-1` user and `N-1` assistant messages).  No hypothesis
constrains the expert stub on turn `k`: the conclusion is fully determined
without it, i.e. the expert is never consulted on the skipped turn. -/
theorem C4_questioner_soft_failure_liveness (N k : Nat) (q a : AgentStub)
    (goal : String) (hk1 : 1 ≤ k) (hkN : k ≤ N)
    (hsoft : softFailAt q (k - 1))
    (hq : ∀ t, t ≠ k - 1 → goodAt q t) (ha : ∀ t, t ≠ k - 1 → goodAt a t) :
    (run_conversation q a goal ⟨N, [], 0⟩).2 = .Completed ∧
    (run_conversation q a goal ⟨N, [], 0⟩).1.current_turn = N ∧
    (run_conversation q a goal ⟨N, [], 0⟩).1.messages.map Message.role
      = altRoles (k - 1) ++ altRoles (N - k) ∧
    ((run_conversation q a goal ⟨N, [], 0⟩).1.messages.map Message.role).count
      "user" = N - 1 ∧
    ((run_conversation q a goal ⟨N, [], 0⟩).1.messages.map Message.role).count
      "assistant" = N - 1 := by
  obtain ⟨ext, hrun, hroles⟩ := run_reach q a goal (k - 1) ⟨N, [], 0⟩
    (by simp; omega)
    (fun t ht1 ht2 => by
      have ht2' : t < 0 + (k - 1) := ht2
      exact ⟨hq t (by omega), ha t (by omega)⟩)
  simp only [Nat.zero_add, List.nil_append] at hrun
  have hc : ¬ (⟨N, ext, k - 1⟩ : ConversationHistory).current_turn
      ≥ (⟨N, ext, k - 1⟩ : ConversationHistory).max_iterations := by
    simp
    omega
  have hskip : run_conversation q a goal ⟨N, ext, k - 1⟩
      = run_conversation q a goal (increment_turn ⟨N, ext, k - 1⟩) := by
    rcases hsoft (bootstrapInput goal
        (⟨N, ext, k - 1⟩ : ConversationHistory).messages) with hinv | ⟨s, hsucc, hempty⟩
    · exact run_step_qinvalid q a goal ⟨N, ext, k - 1⟩ hc hinv
    · exact run_step_qempty q a goal ⟨N, ext, k - 1⟩ s hc hsucc hempty
  rw [hskip] at hrun
  obtain ⟨ext2, hrun2, hroles2⟩ := run_reach q a goal (N - k)
    (increment_turn ⟨N, ext, k - 1⟩)
    (by simp [increment_turn]; omega)
    (fun t ht1 ht2 => by
      have ht1' : (k - 1) + 1 ≤ t := ht1
      exact ⟨hq t (by omega), ha t (by omega)⟩)
  rw [hrun2] at hrun
  have hfin : run_conversation q a goal
      ⟨(increment_turn (⟨N, ext, k - 1⟩ : ConversationHistory)).max_iterations,
        (increment_turn (⟨N, ext, k - 1⟩ : ConversationHistory)).messages ++ ext2,
        (increment_turn (⟨N, ext, k - 1⟩ : ConversationHistory)).current_turn + (N - k)⟩
      = (⟨(increment_turn (⟨N, ext, k - 1⟩ : ConversationHistory)).max_iterations,
          (increment_turn (⟨N, ext, k - 1⟩ : ConversationHistory)).messages ++ ext2,
          (increment_turn (⟨N, ext, k - 1⟩ : ConversationHistory)).current_turn + (N - k)⟩,
        .Completed) := by
    apply run_step_complete
    simp [increment_turn]
    omega
  rw [hfin] at hrun
  rw [hrun]
  refine ⟨rfl, ?_, ?_, ?_, ?_⟩
  · show (increment_turn (⟨N, ext, k - 1⟩ : ConversationHistory)).current_turn
        + (N - k) = N
    simp [increment_turn]
    omega
  · show ((increment_turn (⟨N, ext, k - 1⟩ : ConversationHistory)).messages
        ++ ext2).map Message.role = altRoles (k - 1) ++ altRoles (N - k)
    simp [increment_turn, hroles, hroles2]
  · show (((increment_turn (⟨N, ext, k - 1⟩ : ConversationHistory)).messages
        ++ ext2).map Message.role).count "user" = N - 1
    simp [increment_turn, hroles, hroles2, List.count_append, altRoles_count_user]
    omega
  · show (((increment_turn (⟨N, ext, k - 1⟩ : ConversationHistory)).messages
        ++ ext2).map Message.role).count "assistant" = N - 1
    simp [increment_turn, hroles, hroles2, List.count_append,
      altRoles_count_assistant]
    omega

theorem C4_questioner_soft_failure_liveness_witness :
    (run_conversation
      (fun t _ => if t = 0 then .invalid else .success "Q")
      (fun _ _ => .success "A") "g" ⟨2, [], 0⟩).2 = .Completed ∧
    (run_conversation
      (fun t _ => if t = 0 then .invalid else .success "Q")
      (fun _ _ => .success "A") "g" ⟨2, [], 0⟩).1.current_turn = 2 ∧
    (run_conversation
      (fun t _ => if t = 0 then .invalid else .success "Q")
      (fun _ _ => .success "A") "g" ⟨2, [], 0⟩).1.messages.map Message.role
        = altRoles (1 - 1) ++ altRoles (2 - 1) ∧
    ((run_conversation
      (fun t _ => if t = 0 then .invalid else .success "Q")
      (fun _ _ => .success "A") "g" ⟨2, [], 0⟩).1.messages.map
        Message.role).count "user" = 2 - 1 ∧
    ((run_conversation
      (fun t _ => if t = 0 then .invalid else .success "Q")
      (fun _ _ => .success "A") "g" ⟨2, [], 0⟩).1.messages.map
        Message.role).count "assistant" = 2 - 1 :=
  C4_questioner_soft_failure_liveness 2 1
    (fun t _ => if t = 0 then .invalid else .success "Q")
    (fun _ _ => .success "A") "g" (by decide) (by decide)
    (fun _ => Or.inl rfl)
    (fun t ht _ => ⟨"Q", by simp [ht], by decide⟩)
    (fun t _ _ => ⟨"A", rfl, by decide⟩)

/-- Shape invariant of the loop: whatever the stubs do, the loop only ever
appends messages, every appended message has role `user` or `assistant`, and
the first appended message (if any) is a `user` question. -/
theorem run_messages_shape (q a : AgentStub) (goal : String) :
    ∀ (n : Nat) (h : ConversationHistory),
      h.max_iterations - h.current_turn = n →
      ∃ ext,
        (run_conversation q a goal h).1.messages = h.messages ++ ext ∧
        (∀ m ∈ ext, m.role = "user" ∨ m.role = "assistant") ∧
        (∀ m rest, ext = m :: rest → m.role = "user") := by
  intro n
  induction n using Nat.strong_induction_on with
  | _ n ih =>
  intro h hn
  by_cases hc : h.current_turn ≥ h.max_iterations
  · refine ⟨[], ?_, by simp, by simp⟩
    rw [run_step_complete q a goal h hc]
    simp
  · cases hqr : q h.current_turn (bootstrapInput goal h.messages) with
    | failure =>
      refine ⟨[], ?_, by simp, by simp⟩
      rw [run_step_qfail q a goal h hc hqr]
      simp
    | invalid =>
      obtain ⟨ext, hmsg, hroles, hhead⟩ :=
        ih (h.max_iterations - (h.current_turn + 1)) (by omega)
          (increment_turn h) (by simp [increment_turn])
      refine ⟨ext, ?_, hroles, hhead⟩
      rw [run_step_qinvalid q a goal h hc hqr]
      simpa [increment_turn] using hmsg
    | success s =>
      by_cases hs : pyStrip s = ""
      · obtain ⟨ext, hmsg, hroles, hhead⟩ :=
          ih (h.max_iterations - (h.current_turn + 1)) (by omega)
            (increment_turn h) (by simp [increment_turn])
        refine ⟨ext, ?_, hroles, hhead⟩
        rw [run_step_qempty q a goal h s hc hqr hs]
        simpa [increment_turn] using hmsg
      · cases har : a h.current_turn (appendMsg h "user" (pyStrip s)).messages with
        | failure =>
          refine ⟨[⟨"user", pyStrip s⟩], ?_, by simp, ?_⟩
          · rw [run_step_afail q a goal h s hc hqr hs har]
            simp [appendMsg]
          · intro m rest hmr
            injection hmr with h1 h2
            rw [← h1]
        | invalid =>
          refine ⟨[⟨"user", pyStrip s⟩], ?_, by simp, ?_⟩
          · rw [run_step_ainvalid q a goal h s hc hqr hs har]
            simp [appendMsg]
          · intro m rest hmr
            injection hmr with h1 h2
            rw [← h1]
        | success s2 =>
          by_cases hs2 : pyStrip s2 = ""
          · refine ⟨[⟨"user", pyStrip s⟩], ?_, by simp, ?_⟩
            · rw [run_step_aempty q a goal h s s2 hc hqr hs har hs2]
              simp [appendMsg]
            · intro m rest hmr
              injection hmr with h1 h2
              rw [← h1]
          · obtain ⟨ext, hmsg, hroles, hhead⟩ :=
              ih (h.max_iterations - (h.current_turn + 1)) (by omega)
                (increment_turn
                  (appendMsg (appendMsg h "user" (pyStrip s)) "assistant" (pyStrip s2)))
                (by simp [increment_turn, appendMsg])
            refine ⟨⟨"user", pyStrip s⟩ :: ⟨"assistant", pyStrip s2⟩ :: ext, ?_, ?_, ?_⟩
            · rw [run_step_full q a goal h s s2 hc hqr hs har hs2]
              rw [hmsg]
              simp [increment_turn, appendMsg]
            · intro m hm
              rcases List.mem_cons.mp hm with rfl | hm2
              · exact Or.inl rfl
              rcases List.mem_cons.mp hm2 with rfl | hm3
              · exact Or.inr rfl
              · exact hroles m hm3
            · intro m rest hmr
              injection hmr with h1 h2
              rw [← h1]

/-- Concrete one-turn run with always-successful stubs, used to instantiate
the loop theorems on explicit inputs. -/
theorem run_QA_eval :
    run_conversation (fun _ _ => .success "Q") (fun _ _ => .success "A") "g"
      ⟨1, [], 0⟩
    = (⟨1, [⟨"user", "Q"⟩, ⟨"assistant", "A"⟩], 1⟩, .Completed) := by
  rw [run_step_full (fun _ _ => .success "Q") (fun _ _ => .success "A") "g"
    ⟨1, [], 0⟩ "Q" "A" (by decide) rfl (by decide) rfl (by decide)]
  have hstate : increment_turn (appendMsg (appendMsg ⟨1, [], 0⟩ "user"
      (pyStrip "Q")) "assistant" (pyStrip "A"))
      = (⟨1, [⟨"user", "Q"⟩, ⟨"assistant", "A"⟩], 1⟩ : ConversationHistory) := rfl
  rw [hstate]
  exact run_step_complete _ _ _ _ (by decide)

/-- C10: the synthetic bootstrap `system` message substituted as the user
agent's prompt on an empty history is never appended to the store.  For every
run started with an empty, unseeded history, every message of the final
history has role `user` or `assistant` (so the history has no `system`
message, none of the transcript headings is rendered with the `System` title),
and the first message — when one exists — has role `user`. -/
theorem C10_no_bootstrap_in_history (q a : AgentStub) (goal : String) (N : Nat) :
    (∀ m ∈ (run_conversation q a goal ⟨N, [], 0⟩).1.messages,
      m.role = "user" ∨ m.role = "assistant") ∧
    (∀ m ∈ (run_conversation q a goal ⟨N, [], 0⟩).1.messages,
      m.role ≠ "system") ∧
    (∀ m ∈ (run_conversation q a goal ⟨N, [], 0⟩).1.messages,
      roleTitle m.role ≠ "System") ∧
    (∀ m rest, (run_conversation q a goal ⟨N, [], 0⟩).1.messages = m :: rest →
      m.role = "user") := by
  obtain ⟨ext, hmsg, hroles, hhead⟩ :=
    run_messages_shape q a goal (N - 0) ⟨N, [], 0⟩ rfl
  simp only [List.nil_append] at hmsg
  have hall : ∀ m ∈ (run_conversation q a goal ⟨N, [], 0⟩).1.messages,
      m.role = "user" ∨ m.role = "assistant" := by
    rw [hmsg]; exact hroles
  refine ⟨hall, ?_, ?_, ?_⟩
  · intro m hm
    rcases hall m hm with hr | hr <;> rw [hr] <;> decide
  · intro m hm
    rcases hall m hm with hr | hr <;> rw [hr] <;> decide
  · intro m rest hmr
    exact hhead m rest (by rw [← hmsg, hmr])

theorem C10_no_bootstrap_in_history_witness :
    Message.role ⟨"user", "Q"⟩ = "user" ∨ Message.role ⟨"user", "Q"⟩ = "assistant" :=
  (C10_no_bootstrap_in_history (fun _ _ => .success "Q")
    (fun _ _ => .success "A") "g" 1).1 ⟨"user", "Q"⟩
    (by rw [run_QA_eval]; decide)
